import Mathlib

/-!
Verification development for the drone squad simulation (`swarm_sim.py`).

Embedding conventions:
* Python floats are embedded as exact rationals (`ℚ`); the spec itself treats
  float accumulation as idealized real arithmetic.
* `math.hypot` / `distance` produce real square roots.  Every *comparison* of a
  distance or speed against a nonnegative threshold (`distance(a,b) < r`,
  `speed > MAX_SPEED`, ...) is embedded on squares (`dist2 a b < r ^ 2`), which
  is equivalent over the reals because `Real.sqrt` is monotone and the
  thresholds are nonnegative.  Every use of a square root as a *value*
  (normalising a vector) goes through `sqrtQ`, the exact rational square root,
  which returns the exact root whenever the radicand is a perfect rational
  square and `0` otherwise; theorems that depend on the exact value carry the
  hypothesis that the root is exact and their witnesses use Pythagorean data.
* `min(..., key=...)` (CPython keeps the first element attaining the minimum)
  is embedded as `minBy`.
* Python object identity inside the roster list is embedded as the index of the
  agent in the roster; object references (`leader_ref`, `target_enemy`, a
  projectile's target) are roster indices, as the spec's design notes suggest.
* `random.uniform(-1, 1)` draws are passed in as explicit `rnd` arguments.
* `math.cos`/`math.sin`/`math.pi` (used only by the `CIRCLE` formation branch,
  which no claim touches) are passed in as an abstract `Trig` oracle.
-/

/-- Linear-search integer square root helper (structural recursion on fuel). -/
def isqrtGo (n : ℕ) : ℕ → ℕ → ℕ
  | 0, acc => acc
  | fuel + 1, acc => if (acc + 1) * (acc + 1) ≤ n then isqrtGo n fuel (acc + 1) else acc

/-- Integer square root by linear search; exact floor of the square root. -/
def isqrt (n : ℕ) : ℕ := isqrtGo n n 0

/-- Exact rational square root: returns the exact nonnegative root when the
argument is a perfect rational square, and `0` otherwise.  The post-hoc check
`n * n = q.num ∧ d * d = q.den` guarantees correctness independently of how the
candidate root was computed. -/
def sqrtQ (q : ℚ) : ℚ :=
  let n := isqrt q.num.toNat
  let d := isqrt q.den
  if (n * n : ℤ) = q.num ∧ d * d = q.den then (n : ℚ) / (d : ℚ) else 0

/-- Squared Euclidean distance between two points; `distance(a,b) ** 2`. -/
def dist2 (a b : ℚ × ℚ) : ℚ := (a.1 - b.1) ^ 2 + (a.2 - b.2) ^ 2

/-- Embedding of `distance(a, b)` (`math.hypot`) as a value, via `sqrtQ`. -/
def distQ (a b : ℚ × ℚ) : ℚ := sqrtQ (dist2 a b)

/-- Squared magnitude of a 2D vector. -/
def mag2 (v : ℚ × ℚ) : ℚ := v.1 ^ 2 + v.2 ^ 2

/-- Python float modulo with positive divisor: `x % y = x - y * floor (x / y)`,
always in `[0, y)`. -/
def fmod (x y : ℚ) : ℚ := x - y * (⌊x / y⌋ : ℤ)

/-- Constants from the top of `swarm_sim.py`. -/
def WIDTH : ℚ := 1000

/-- World height. -/
def HEIGHT : ℚ := 700

/-- Drawing/collision radius of a boid. -/
def BOID_RADIUS : ℚ := 6

/-- Per-tick speed cap. -/
def MAX_SPEED : ℚ := 2

/-- Flocking neighbourhood radius. -/
def NEIGHBOR_RADIUS : ℚ := 50

/-- Separation radius. -/
def AVOID_RADIUS : ℚ := 20

/-- Global formation mode. -/
def FORMATION_MODE : String := "V"

/-- Abstract oracle for `math.cos`, `math.sin`, `math.pi`; only the `CIRCLE`
formation branch consults it. -/
structure Trig where
  cos : ℚ → ℚ
  sin : ℚ → ℚ
  pi : ℚ

/-- Trivial trig oracle used for concrete instantiations. -/
def tr0 : Trig := ⟨fun _ => 0, fun _ => 0, 0⟩

/-- Embedding of `get_formation_offset(index, mode, total)`.  Note the source
computes `layer = (index + 1) // 2` with *floor* division. -/
def get_formation_offset (tr : Trig) (index : ℕ) (mode : String) (total : ℕ) : ℚ × ℚ :=
  let spacing : ℚ := 30
  if mode = "V" then
    let layer : ℕ := (index + 1) / 2
    let side : ℚ := if index % 2 = 0 then -1 else 1
    (side * spacing * (layer : ℚ), spacing * (layer : ℚ))
  else if mode = "CIRCLE" then
    let angle : ℚ := 2 * tr.pi / (total : ℚ) * (index : ℚ)
    let radius : ℚ := 60
    (tr.cos angle * radius, tr.sin angle * radius)
  else (0, 0)

/-- Pair every list element with its index, starting at `k`. -/
def idxFrom {α : Type} (k : ℕ) : List α → List (ℕ × α)
  | [] => []
  | a :: as => (k, a) :: idxFrom (k + 1) as

/-- Pair every list element with its index (identity-as-index embedding). -/
def withIdx {α : Type} (l : List α) : List (ℕ × α) := idxFrom 0 l

/-- First-occurrence minimum, the semantics of CPython's `min(c :: cs, key)`:
the accumulator is replaced only when a strictly smaller key appears. -/
def minBy {α : Type} (key : α → ℚ) (c : α) (cs : List α) : α :=
  cs.foldl (fun acc x => if key x < key acc then x else acc) c

/-- State of one drone; the fields of `Boid.__init__` (the display label is
rendering-only and omitted, per the spec's scope). -/
structure Boid where
  position : ℚ × ℚ
  velocity : ℚ × ℚ
  squad_id : ℤ
  is_leader : Bool
  index_in_squad : ℕ
  leader_ref : Option ℕ
  formation_offset : ℚ × ℚ
  waypoints : List (ℚ × ℚ)
  current_wp : ℕ
  health : ℚ
  attacking : Bool
  target_enemy : Option ℕ
  is_medic : Bool
  shielded : Bool
  shield_timer : ℤ
  projectile_cooldown : ℤ
  is_enemy : Bool
  firing_range : ℚ
  detection_range : ℚ
  state : String
  deriving DecidableEq

/-- Placeholder agent used as the default of indexed lookups. -/
def dummyBoid : Boid :=
  { position := (0, 0), velocity := (0, 0), squad_id := 0, is_leader := false
    index_in_squad := 0, leader_ref := none, formation_offset := (0, 0)
    waypoints := [], current_wp := 0, health := 0, attacking := false
    target_enemy := none, is_medic := false, shielded := false, shield_timer := 0
    projectile_cooldown := 0, is_enemy := false, firing_range := 200
    detection_range := 300, state := "PATROL" }

/-- Embedding of `Boid.__init__(x, y, squad_id, is_leader, index, is_enemy)`;
the random initial velocity is passed explicitly. -/
def mkBoid (x y : ℚ) (squad_id : ℤ) (is_leader : Bool) (index : ℕ) (is_enemy : Bool)
    (vel : ℚ × ℚ) : Boid :=
  { position := (x, y), velocity := vel, squad_id := squad_id, is_leader := is_leader
    index_in_squad := index, leader_ref := none, formation_offset := (0, 0)
    waypoints := [], current_wp := 0, health := 100, attacking := false
    target_enemy := none
    is_medic := index = 0 && !is_leader && !is_enemy
    shielded := false, shield_timer := 0, projectile_cooldown := 0
    is_enemy := is_enemy, firing_range := 200, detection_range := 300
    state := "PATROL" }

/-- State of one projectile; `target_boid` is the roster index of the target. -/
structure Projectile where
  pos : ℚ × ℚ
  target_boid : ℕ
  velocity : ℚ × ℚ
  speed : ℚ
  active : Bool
  deriving DecidableEq

/-- Filter condition of `apply_shield`: same squad, non-leader, non-enemy.  No
health check appears in the source. -/
abbrev shieldCond (self b : Boid) : Prop :=
  b.squad_id = self.squad_id ∧ b.is_leader = false ∧ b.is_enemy = false

/-- Map a function receiving the element index over a list, indices from `k`. -/
def mapIdxFrom {α : Type} (f : ℕ → α → α) : ℕ → List α → List α
  | _, [] => []
  | k, a :: as => f k a :: mapIdxFrom f (k + 1) as

/-- Condition under which `heal_ally` bumps agent `j`: the `squad_allies`
filter (same squad, not self, not enemy) combined with the in-loop distance
and health test.  No liveness check appears in the source. -/
abbrev healCond (self : Boid) (i j : ℕ) (b : Boid) : Prop :=
  j ≠ i ∧ b.squad_id = self.squad_id ∧ b.is_enemy = false ∧
    dist2 self.position b.position < 60 ^ 2 ∧ b.health < 100

/-- Health bump applied by a medic: `+0.2`, clamped at `100`. -/
def healBump (b : Boid) : Boid :=
  let h := b.health + 0.2
  { b with health := if h > 100 then 100 else h }

/-- Embedding of `Boid.heal_ally(self, all_boids)`; `i` is the roster index of
`self`.  The source's list-comprehension filter followed by a per-ally loop is
collapsed into one indexed map (each ally is mutated independently). -/
def Boid.heal_ally (self : Boid) (i : ℕ) (roster : List Boid) : List Boid :=
  if self.is_medic = true then
    mapIdxFrom (fun j b => if healCond self i j b then healBump b else b) 0 roster
  else roster

/-- Embedding of `Boid.apply_shield(self, all_boids)`; `i` is the roster index
of the activating agent. -/
def Boid.apply_shield (i : ℕ) (roster : List Boid) : List Boid :=
  let self := roster.getD i dummyBoid
  if self.is_leader = true ∧ self.is_enemy = false ∧ self.shield_timer ≤ 0 then
    let r := roster.map fun b =>
      if shieldCond self b then { b with shielded := true, shield_timer := 180 } else b
    r.set i { self with shield_timer := 600 }
  else roster

/-- Distance-to-`self` key used by the `min(..., key=...)` calls. -/
def distKey (self : Boid) (x : ℕ × Boid) : ℚ := dist2 self.position x.2.position

/-- Live opposing-faction agents strictly within `detection_range` of `self`,
with their roster indices, in roster order (`handle_patrol`, lines 243-244). -/
def detectCandidates (self : Boid) (roster : List Boid) : List (ℕ × Boid) :=
  (withIdx roster).filter fun x =>
    decide (x.2.is_enemy ≠ self.is_enemy ∧ 0 < x.2.health ∧
      dist2 self.position x.2.position < self.detection_range ^ 2)

/-- Movement part of `handle_patrol` (lines 219-240): leaders steer to their
waypoint, followers steer to their formation slot. -/
def patrolMove (self : Boid) (tr : Trig) (roster : List Boid) (squad_size : ℕ) : Boid :=
  if self.is_leader = true then
    if self.waypoints = [] then self
    else
      let target := self.waypoints.getD self.current_wp (0, 0)
      if dist2 self.position target < 10 ^ 2 then
        { self with current_wp := (self.current_wp + 1) % self.waypoints.length }
      else
        { self with velocity := (self.velocity.1 + 0.05 * (target.1 - self.position.1),
                                 self.velocity.2 + 0.05 * (target.2 - self.position.2)) }
  else
    match self.leader_ref with
    | some li =>
      let leader := roster.getD li dummyBoid
      if 0 < leader.health then
        let off := get_formation_offset tr self.index_in_squad FORMATION_MODE squad_size
        let target := (leader.position.1 + off.1, leader.position.2 + off.2)
        { self with formation_offset := off
                    velocity := (self.velocity.1 + 0.04 * (target.1 - self.position.1),
                                 self.velocity.2 + 0.04 * (target.2 - self.position.2)) }
      else { self with leader_ref := none }
    | none => { self with leader_ref := none }

/-- Embedding of `Boid.handle_patrol(self, all_boids, squad_size)`. -/
def Boid.handle_patrol (self : Boid) (tr : Trig) (roster : List Boid) (squad_size : ℕ) : Boid :=
  let s := patrolMove self tr roster squad_size
  match detectCandidates s roster with
  | [] => s
  | c :: cs =>
    { s with target_enemy := some (minBy (distKey s) c cs).1
             state := "ENGAGE", attacking := true }

/-- Embedding of `Boid.handle_engage(self, all_boids)`; also threads the global
projectile list, to which a spawned projectile is appended. -/
def Boid.handle_engage (self : Boid) (roster : List Boid) (projectiles : List Projectile) :
    Boid × List Projectile :=
  let sp :=
    match self.target_enemy with
    | some ti =>
      let t := roster.getD ti dummyBoid
      if 0 < t.health then
        let s :=
          if dist2 self.position t.position > (self.firing_range * 0.8) ^ 2 then
            { self with velocity := (self.velocity.1 + 0.05 * (t.position.1 - self.position.1),
                                     self.velocity.2 + 0.05 * (t.position.2 - self.position.2)) }
          else
            { self with velocity := (self.velocity.1 * 0.9, self.velocity.2 * 0.9) }
        if s.projectile_cooldown = 0 ∧ dist2 s.position t.position ≤ s.firing_range ^ 2 then
          ({ s with projectile_cooldown := 60 },
           projectiles ++ [{ pos := s.position, target_boid := ti, velocity := (0, 0)
                             speed := 5, active := true }])
        else (s, projectiles)
      else ({ self with attacking := false, target_enemy := none, state := "PATROL" }, projectiles)
    | none => ({ self with attacking := false, target_enemy := none, state := "PATROL" }, projectiles)
  if sp.1.health < 30 ∧ sp.1.is_enemy = false then ({ sp.1 with state := "EVADE" }, sp.2) else sp

/-- Live opposing-faction agents strictly within `1.5 * detection_range`, with
their roster indices, in roster order (`handle_evade`, line 279). -/
def threatList (self : Boid) (roster : List Boid) : List (ℕ × Boid) :=
  (withIdx roster).filter fun x =>
    decide (x.2.is_enemy ≠ self.is_enemy ∧ 0 < x.2.health ∧
      dist2 self.position x.2.position < (self.detection_range * 1.5) ^ 2)

/-- Flee boost of `handle_evade`: `velocity += 0.1 * (position - threatPos)`. -/
def fleeBoost (self : Boid) (threat : Boid) : ℚ × ℚ :=
  (self.velocity.1 + (self.position.1 - threat.position.1) * 0.1,
   self.velocity.2 + (self.position.2 - threat.position.2) * 0.1)

/-- Minimum-evade-speed step of `handle_evade` (lines 288-291): when the speed
is below `MAX_SPEED / 2`, each component is rescaled by the precomputed speed,
or replaced by an independent `random.uniform(-1,1) * MAX_SPEED / 2` draw when
the speed is exactly zero. -/
def evadeRescale (rnd : ℚ × ℚ) (v : ℚ × ℚ) : ℚ × ℚ :=
  let s2 := mag2 v
  if s2 < (MAX_SPEED / 2) ^ 2 then
    let speed := sqrtQ s2
    (if 0 < s2 then v.1 / speed * (MAX_SPEED / 2) else rnd.1 * MAX_SPEED / 2,
     if 0 < s2 then v.2 / speed * (MAX_SPEED / 2) else rnd.2 * MAX_SPEED / 2)
  else v

/-- Embedding of `Boid.handle_evade(self, all_boids)`; `rnd` carries the two
`random.uniform(-1, 1)` draws. -/
def Boid.handle_evade (self : Boid) (rnd : ℚ × ℚ) (roster : List Boid) : Boid :=
  match threatList self roster with
  | t :: ts =>
    let closest := minBy (distKey self) t ts
    { self with velocity := evadeRescale rnd (fleeBoost self closest.2) }
  | [] =>
    if 50 < self.health then { self with state := "PATROL" }
    else { self with state := "PATROL" }

/-- Flocking neighbours (line 180): every roster agent other than `self`
(identity embedded as index `i`) strictly within `NEIGHBOR_RADIUS`; the source
applies no health or faction filter here. -/
def neighborList (i : ℕ) (self : Boid) (roster : List Boid) : List Boid :=
  (((withIdx roster).filter fun x =>
    decide (x.1 ≠ i ∧ dist2 self.position x.2.position < NEIGHBOR_RADIUS ^ 2)).map
      fun x => x.2)

/-- Flocking forces (lines 181-198): cohesion, then alignment (reading the
post-cohesion velocity), then separation accumulated over neighbours in order. -/
def Boid.flock (self : Boid) (i : ℕ) (roster : List Boid) : Boid :=
  let neighbors := neighborList i self roster
  if neighbors.isEmpty then self
  else
    let cnt : ℚ := neighbors.length
    let avg_pos : ℚ × ℚ := ((neighbors.map fun b => b.position.1).sum / cnt,
                            (neighbors.map fun b => b.position.2).sum / cnt)
    let v := (self.velocity.1 + 0.01 * (avg_pos.1 - self.position.1),
              self.velocity.2 + 0.01 * (avg_pos.2 - self.position.2))
    let avg_vel : ℚ × ℚ := ((neighbors.map fun b => b.velocity.1).sum / cnt,
                            (neighbors.map fun b => b.velocity.2).sum / cnt)
    let v := (v.1 + 0.05 * (avg_vel.1 - v.1), v.2 + 0.05 * (avg_vel.2 - v.2))
    let v := neighbors.foldl (fun vv b =>
        if dist2 self.position b.position < AVOID_RADIUS ^ 2 then
          (vv.1 + (self.position.1 - b.position.1) * 0.05,
           vv.2 + (self.position.2 - b.position.2) * 0.05)
        else vv) v
    { self with velocity := v }

/-- Speed cap (lines 200-204): uniform rescale to `MAX_SPEED` when exceeded.
The comparison `speed > MAX_SPEED` is embedded on squares; the rescale divides
by `sqrtQ` of the squared speed. -/
def capSpeed (v : ℚ × ℚ) : ℚ × ℚ :=
  if mag2 v > MAX_SPEED ^ 2 then
    let speed := sqrtQ (mag2 v)
    (v.1 / speed * MAX_SPEED, v.2 / speed * MAX_SPEED)
  else v

/-- Timer bookkeeping at the top of `Boid.update` (lines 161-167). -/
def tickTimers (self : Boid) : Boid :=
  let s := if 0 < self.projectile_cooldown
           then { self with projectile_cooldown := self.projectile_cooldown - 1 } else self
  let s := if 0 < s.shield_timer then { s with shield_timer := s.shield_timer - 1 } else s
  if s.shielded = true ∧ s.shield_timer ≤ 0 then { s with shielded := false } else s

/-- State-machine dispatch of `Boid.update` (lines 169-176). -/
def dispatchState (tr : Trig) (rnd : ℚ × ℚ) (roster : List Boid) (squad_size : ℕ)
    (projectiles : List Projectile) (self : Boid) : Boid × List Projectile :=
  if self.state = "PATROL" then (self.handle_patrol tr roster squad_size, projectiles)
  else if self.state = "ENGAGE" then self.handle_engage roster projectiles
  else if self.state = "EVADE" then (self.handle_evade rnd roster, projectiles)
  else (self, projectiles)

/-- Tail of `Boid.update` (lines 178-212): flocking, speed cap, integration
with toroidal wrap. -/
def postStep (i : ℕ) (roster : List Boid) (self : Boid) : Boid :=
  let s := self.flock i roster
  let s := { s with velocity := capSpeed s.velocity }
  { s with position := (fmod (s.position.1 + s.velocity.1) WIDTH,
                        fmod (s.position.2 + s.velocity.2) HEIGHT) }

/-- The fully updated agent `i` together with the updated projectile list:
timers, state dispatch, flocking, cap, integration. -/
def updatedSelf (tr : Trig) (rnd : ℚ × ℚ) (i : ℕ) (roster : List Boid) (squad_size : ℕ)
    (projectiles : List Projectile) : Boid × List Projectile :=
  let self := tickTimers (roster.getD i dummyBoid)
  let sp := dispatchState tr rnd roster squad_size projectiles self
  (postStep i roster sp.1, sp.2)

/-- Embedding of `Boid.update(self, all_boids, squad_size)` for the agent at
roster index `i`: returns the whole roster (self replaced, medics' heal
effects applied to the others) and the projectile list.  Peer agents are not
mutated before the final `heal_ally` call, matching the source, where the
handlers only mutate `self` and the projectile list. -/
def Boid.update (tr : Trig) (rnd : ℚ × ℚ) (i : ℕ) (roster : List Boid) (squad_size : ℕ)
    (projectiles : List Projectile) : List Boid × List Projectile :=
  if (roster.getD i dummyBoid).health ≤ 0 then (roster, projectiles)
  else
    let sp := updatedSelf tr rnd i roster squad_size projectiles
    (List.set (sp.1.heal_ally i roster) i sp.1, sp.2)

/-- Homing velocity of `Projectile.update` (lines 86-91): unit vector towards
the target scaled by `speed`, or zero when exactly on top of the target. -/
def projVel (p : Projectile) (t : Boid) : ℚ × ℚ :=
  if 0 < dist2 p.pos t.position then
    ((t.position.1 - p.pos.1) / distQ p.pos t.position * p.speed,
     (t.position.2 - p.pos.2) / distQ p.pos t.position * p.speed)
  else (0, 0)

/-- Position of the projectile after this tick's integration (lines 93-94). -/
def projMoved (p : Projectile) (t : Boid) : ℚ × ℚ :=
  (p.pos.1 + (projVel p t).1, p.pos.2 + (projVel p t).2)

/-- Embedding of `Projectile.update(self)`: deactivate on dead target, home,
integrate, and resolve the hit (damage `5` unless the target is shielded, then
deactivate unconditionally). -/
def Projectile.update (roster : List Boid) (p : Projectile) : Projectile × List Boid :=
  if p.active = false ∨ (roster.getD p.target_boid dummyBoid).health ≤ 0 then
    ({ p with active := false }, roster)
  else
    let t := roster.getD p.target_boid dummyBoid
    let vel := projVel p t
    let newpos := projMoved p t
    if dist2 newpos t.position < BOID_RADIUS ^ 2 then
      ({ p with velocity := vel, pos := newpos, active := false },
       if t.shielded = false
       then roster.set p.target_boid { t with health := t.health - 5 } else roster)
    else ({ p with velocity := vel, pos := newpos }, roster)

/-- The exact rational square root is nonnegative. -/
theorem sqrtQ_nonneg (q : ℚ) : 0 ≤ sqrtQ q := by
  simp only [sqrtQ]
  split
  · positivity
  · exact le_refl 0

/-- The exact rational square root either squares back to its argument or is
zero (when the argument is not a perfect rational square). -/
theorem sqrtQ_spec (q : ℚ) : sqrtQ q ^ 2 = q ∨ sqrtQ q = 0 := by
  simp only [sqrtQ]
  split
  case isTrue h =>
    left
    obtain ⟨hn, hd⟩ := h
    have h1 : ((isqrt q.num.toNat : ℚ)) * ((isqrt q.num.toNat : ℚ)) = (q.num : ℚ) := by
      exact_mod_cast hn
    have h2 : ((isqrt q.den : ℚ)) * ((isqrt q.den : ℚ)) = (q.den : ℚ) := by
      exact_mod_cast hd
    rw [div_pow, pow_two, pow_two, h1, h2]
    exact_mod_cast Rat.num_div_den q
  case isFalse h => right; rfl

/-- Python float modulo equals the divisor times the fractional part. -/
theorem fmod_eq_fract (x y : ℚ) (hy : y ≠ 0) : fmod x y = y * Int.fract (x / y) := by
  rw [Int.fract, mul_sub, mul_div_cancel₀ _ hy, fmod]

/-- Python float modulo with a positive divisor is nonnegative. -/
theorem fmod_nonneg (x y : ℚ) (hy : 0 < y) : 0 ≤ fmod x y := by
  rw [fmod_eq_fract x y hy.ne']
  exact mul_nonneg hy.le (Int.fract_nonneg _)

/-- Python float modulo with a positive divisor is below the divisor. -/
theorem fmod_lt (x y : ℚ) (hy : 0 < y) : fmod x y < y := by
  rw [fmod_eq_fract x y hy.ne']
  calc y * Int.fract (x / y) < y * 1 := by
        exact mul_lt_mul_of_pos_left (Int.fract_lt_one _) hy
    _ = y := mul_one y

/-- Speed cap invariant: after `capSpeed` the squared magnitude is at most
`MAX_SPEED ^ 2`, for every input vector. -/
theorem mag2_capSpeed_le (v : ℚ × ℚ) : mag2 (capSpeed v) ≤ MAX_SPEED ^ 2 := by
  simp only [capSpeed]
  split
  case isTrue h =>
    rcases sqrtQ_spec (mag2 v) with hs | hs
    · have hpos : 0 < mag2 v := lt_trans (by norm_num [MAX_SPEED]) h
      have hne : sqrtQ (mag2 v) ≠ 0 := by
        intro hc
        rw [hc] at hs
        simp at hs
        exact absurd hs.symm hpos.ne'
      have hkey : mag2 (v.1 / sqrtQ (mag2 v) * MAX_SPEED, v.2 / sqrtQ (mag2 v) * MAX_SPEED)
          = MAX_SPEED ^ 2 := by
        have h1 : mag2 (v.1 / sqrtQ (mag2 v) * MAX_SPEED, v.2 / sqrtQ (mag2 v) * MAX_SPEED)
            = MAX_SPEED ^ 2 * (mag2 v / sqrtQ (mag2 v) ^ 2) := by
          simp only [mag2]
          ring
        have h2 : mag2 v / sqrtQ (mag2 v) ^ 2 = 1 := by
          rw [div_eq_one_iff_eq (pow_ne_zero 2 hne)]
          exact hs.symm
        rw [h1, h2, mul_one]
      rw [hkey]
    · rw [hs]
      simp only [div_zero, zero_mul, mag2]
      norm_num [MAX_SPEED]
  case isFalse h => exact le_of_not_lt h

/-- Indexed map preserves length. -/
theorem mapIdxFrom_length {α : Type} (f : ℕ → α → α) (k : ℕ) (l : List α) :
    (mapIdxFrom f k l).length = l.length := by
  induction l generalizing k with
  | nil => rfl
  | cons a as ih => simp [mapIdxFrom, ih]

/-- Pointwise description of the indexed map. -/
theorem mapIdxFrom_getD {α : Type} (f : ℕ → α → α) (k j : ℕ) (l : List α) (d : α)
    (h : j < l.length) : (mapIdxFrom f k l).getD j d = f (k + j) (l.getD j d) := by
  induction l generalizing k j with
  | nil => simp at h
  | cons a as ih =>
    cases j with
    | zero => rfl
    | succ j =>
      have h' : j < as.length := by simpa using h
      have := ih (k + 1) j h'
      simpa [mapIdxFrom, Nat.add_right_comm k 1 j, Nat.add_assoc] using this

/-- Reading back the written cell of `List.set`. -/
theorem getD_set_self {α : Type} (l : List α) (i : ℕ) (a d : α) (h : i < l.length) :
    (l.set i a).getD i d = a := by
  rw [List.getD_eq_getElem _ _ (by simpa using h)]
  exact List.getElem_set_self _

/-- Reading any other cell of `List.set`. -/
theorem getD_set_ne {α : Type} (l : List α) (i j : ℕ) (a d : α) (hne : j ≠ i) :
    (l.set i a).getD j d = l.getD j d := by
  by_cases h : j < l.length
  · rw [List.getD_eq_getElem _ _ (by simpa using h), List.getD_eq_getElem _ _ h]
    exact List.getElem_set_ne (Ne.symm hne) _
  · rw [List.getD_eq_default _ _ (by simpa using Nat.le_of_not_lt h),
        List.getD_eq_default _ _ (Nat.le_of_not_lt h)]

/-- A pair drawn from the index pairing has its value in the underlying list. -/
theorem idxFrom_snd_mem {α : Type} (k : ℕ) (l : List α) (x : ℕ × α) (h : x ∈ idxFrom k l) :
    x.2 ∈ l := by
  induction l generalizing k with
  | nil => simp [idxFrom] at h
  | cons a as ih =>
    simp only [idxFrom, List.mem_cons] at h ⊢
    rcases h with h | h
    · left; rw [h]
    · right; exact ih _ h

/-- Every in-range cell appears, with its index, in the index pairing. -/
theorem getD_mem_idxFrom {α : Type} (k j : ℕ) (l : List α) (d : α) (h : j < l.length) :
    (k + j, l.getD j d) ∈ idxFrom k l := by
  induction l generalizing k j with
  | nil => simp at h
  | cons a as ih =>
    cases j with
    | zero => simp [idxFrom]
    | succ j =>
      have h' : j < as.length := by simpa using h
      have := ih (k + 1) j h'
      simp only [idxFrom, List.mem_cons]
      right
      rw [show k + (j + 1) = (k + 1) + j by omega]
      exact this

/-- The first-occurrence minimum has a key no larger than any list element. -/
theorem minBy_le {α : Type} (key : α → ℚ) :
    ∀ (cs : List α) (c : α), ∀ y ∈ c :: cs, key (minBy key c cs) ≤ key y := by
  intro cs
  induction cs with
  | nil =>
    intro c y hy
    rcases List.mem_cons.mp hy with rfl | h
    · exact le_refl _
    · simp at h
  | cons x xs ih =>
    intro c y hy
    have hm : minBy key c (x :: xs) = minBy key (if key x < key c then x else c) xs := rfl
    rw [hm]
    by_cases hxc : key x < key c
    · rw [if_pos hxc]
      have h1 := ih x
      rcases List.mem_cons.mp hy with rfl | hy'
      · exact le_trans (h1 x (List.mem_cons_self x xs)) hxc.le
      · exact h1 y hy'
    · rw [if_neg hxc]
      have h1 := ih c
      have hcx : key c ≤ key x := not_lt.mp hxc
      rcases List.mem_cons.mp hy with rfl | hy'
      · exact h1 y (List.mem_cons_self y xs)
      · rcases List.mem_cons.mp hy' with rfl | hy''
        · exact le_trans (h1 c (List.mem_cons_self c xs)) hcx
        · exact h1 y (List.mem_cons_of_mem c hy'')

/-- Stable first-occurrence minimum: the list splits around the selected
element, every element strictly before it has a strictly larger key (so no
earlier element ties), and every element after it has a key at least as
large.  This is exactly CPython's `min` tie-breaking. -/
theorem minBy_first {α : Type} (key : α → ℚ) :
    ∀ (cs : List α) (c : α),
      ∃ l1 l2, c :: cs = l1 ++ minBy key c cs :: l2 ∧
        (∀ x ∈ l1, key (minBy key c cs) < key x) ∧
        (∀ x ∈ l2, key (minBy key c cs) ≤ key x) := by
  intro cs
  induction cs with
  | nil =>
    intro c
    exact ⟨[], [], by simp [minBy], by simp, by simp⟩
  | cons x xs ih =>
    intro c
    have hm : minBy key c (x :: xs) = minBy key (if key x < key c then x else c) xs := rfl
    rw [hm]
    by_cases hxc : key x < key c
    · rw [if_pos hxc]
      obtain ⟨l1, l2, hdec, hlt, hle⟩ := ih x
      refine ⟨c :: l1, l2, ?_, ?_, hle⟩
      · rw [List.cons_append, ← hdec]
      · intro z hz
        rcases List.mem_cons.mp hz with rfl | hz'
        · exact lt_of_le_of_lt (minBy_le key xs x x (List.mem_cons_self x xs)) hxc
        · exact hlt z hz'
    · rw [if_neg hxc]
      have hcx : key c ≤ key x := not_lt.mp hxc
      obtain ⟨l1, l2, hdec, hlt, hle⟩ := ih c
      cases l1 with
      | nil =>
        simp only [List.nil_append] at hdec
        obtain ⟨hcm, hxl⟩ := List.cons_eq_cons.mp hdec
        refine ⟨[], x :: xs, ?_, by simp, ?_⟩
        · rw [List.nil_append, ← hcm]
        · intro z hz
          rcases List.mem_cons.mp hz with rfl | hz'
          · rw [← hcm]; exact hcx
          · rw [← hcm]; exact le_of_eq_of_le (congrArg key hcm) (hle z (hxl ▸ hz'))
      | cons a t =>
        rw [List.cons_append] at hdec
        obtain ⟨hca, hxst⟩ := List.cons_eq_cons.mp hdec
        have hmc : key (minBy key c xs) < key c := by
          have := hlt a (List.mem_cons_self a t)
          rwa [← hca] at this
        refine ⟨c :: x :: t, l2, ?_, ?_, hle⟩
        · rw [List.cons_append, List.cons_append, ← hxst]
        · intro z hz
          rcases List.mem_cons.mp hz with rfl | hz'
          · exact hmc
          · rcases List.mem_cons.mp hz' with rfl | hz''
            · exact lt_of_lt_of_le hmc hcx
            · exact hlt z (List.mem_cons_of_mem a hz'')

/-- The movement half of `handle_patrol` never changes the fields that target
acquisition reads: position, faction, and detection range. -/
theorem patrolMove_preserves (self : Boid) (tr : Trig) (roster : List Boid) (n : ℕ) :
    (patrolMove self tr roster n).position = self.position ∧
    (patrolMove self tr roster n).is_enemy = self.is_enemy ∧
    (patrolMove self tr roster n).detection_range = self.detection_range := by
  simp only [patrolMove]
  repeat' split
  all_goals exact ⟨rfl, rfl, rfl⟩

/-- Target acquisition only reads position, faction and detection range. -/
theorem detectCandidates_congr (s s' : Boid) (roster : List Boid)
    (h1 : s.position = s'.position) (h2 : s.is_enemy = s'.is_enemy)
    (h3 : s.detection_range = s'.detection_range) :
    detectCandidates s roster = detectCandidates s' roster := by
  simp only [detectCandidates, h1, h2, h3]

/-- The distance key only reads the scanning agent's position. -/
theorem distKey_congr (s s' : Boid) (h : s.position = s'.position) : distKey s = distKey s' := by
  funext x
  simp only [distKey, h]

/-- Unfolding `Boid.update` for a live agent. -/
theorem update_live (tr : Trig) (rnd : ℚ × ℚ) (i : ℕ) (roster : List Boid) (n : ℕ)
    (ps : List Projectile) (h : 0 < (roster.getD i dummyBoid).health) :
    Boid.update tr rnd i roster n ps =
      (List.set ((updatedSelf tr rnd i roster n ps).1.heal_ally i roster) i
        (updatedSelf tr rnd i roster n ps).1,
       (updatedSelf tr rnd i roster n ps).2) := by
  simp only [Boid.update]
  rw [if_neg (not_le.mpr h)]

/-- Healing preserves the roster length. -/
theorem heal_ally_length (self : Boid) (i : ℕ) (roster : List Boid) :
    (Boid.heal_ally self i roster).length = roster.length := by
  simp only [Boid.heal_ally]
  split
  · exact mapIdxFrom_length _ _ _
  · rfl

/-- The velocity produced by the post-dispatch pipeline is exactly the capped
flocked velocity; integration and wrapping do not touch it. -/
theorem postStep_velocity (i : ℕ) (roster : List Boid) (s : Boid) :
    (postStep i roster s).velocity = capSpeed ((s.flock i roster).velocity) := rfl

/-- The position produced by the post-dispatch pipeline is the wrapped
integrated position. -/
theorem postStep_position (i : ℕ) (roster : List Boid) (s : Boid) :
    (postStep i roster s).position =
      (fmod ((s.flock i roster).position.1 + (capSpeed ((s.flock i roster).velocity)).1) WIDTH,
       fmod ((s.flock i roster).position.2 + (capSpeed ((s.flock i roster).velocity)).2) HEIGHT) :=
  rfl

/-- Healing never rewrites the healing medic's own roster slot. -/
theorem heal_ally_self_slot (self : Boid) (i : ℕ) (roster : List Boid) (d : Boid)
    (h : i < roster.length) :
    (Boid.heal_ally self i roster).getD i d = roster.getD i d := by
  simp only [Boid.heal_ally]
  split
  · rw [mapIdxFrom_getD _ 0 i roster d h]
    simp
  · rfl

/-- Pointwise description of `heal_ally` for a medic. -/
theorem heal_ally_getD (self : Boid) (i j : ℕ) (roster : List Boid) (d : Boid)
    (hm : self.is_medic = true) (hj : j < roster.length) :
    (Boid.heal_ally self i roster).getD j d =
      (if healCond self i j (roster.getD j d) then healBump (roster.getD j d)
       else roster.getD j d) := by
  simp only [Boid.heal_ally, if_pos hm]
  rw [mapIdxFrom_getD _ 0 j roster d hj]
  simp

/-- For a non-medic, `heal_ally` is the identity on the roster. -/
theorem heal_ally_nonmedic (self : Boid) (i : ℕ) (roster : List Boid)
    (hm : self.is_medic = false) : Boid.heal_ally self i roster = roster := by
  simp [Boid.heal_ally, hm]

/-- Claim C1 counterexample: the claimed `V`-formation offsets are wrong on
the code.  The source computes `layer = (index + 1) // 2` (floor), so follower
index 0 sits at offset `(0, 0)` (not `(-30, 30)`) and index 2 at `(-30, 30)`
(not `(-60, 60)`). -/
theorem c1_counterexample :
    get_formation_offset tr0 0 "V" 6 = (0, 0) ∧
    get_formation_offset tr0 0 "V" 6 ≠ (-30, 30) ∧
    get_formation_offset tr0 2 "V" 6 = (-30, 30) ∧
    get_formation_offset tr0 2 "V" 6 ≠ (-60, 60) := by
  refine ⟨?_, ?_, ?_, ?_⟩ <;> simp [get_formation_offset, Prod.ext_iff]

/-- Claim C1 (amended): `get_formation_offset` is pure and deterministic (its
`V` branch ignores the trig oracle and the squad size), and for mode `V` it
follows `layer = (index + 1) // 2` (floor division) with side `-1` for even
index and `+1` for odd index and spacing `30`; hence index 0 yields `(0, 0)`,
index 1 yields `(30, 30)`, and index 2 yields `(-30, 30)`. -/
theorem c1_amended (tr tr' : Trig) (total total' : ℕ) (index : ℕ) :
    get_formation_offset tr index "V" total =
      ((if index % 2 = 0 then (-1 : ℚ) else 1) * 30 * (((index + 1) / 2 : ℕ) : ℚ),
       30 * (((index + 1) / 2 : ℕ) : ℚ)) ∧
    get_formation_offset tr index "V" total = get_formation_offset tr' index "V" total' ∧
    get_formation_offset tr 0 "V" total = (0, 0) ∧
    get_formation_offset tr 1 "V" total = (30, 30) ∧
    get_formation_offset tr 2 "V" total = (-30, 30) := by
  refine ⟨rfl, rfl, ?_, ?_, ?_⟩ <;> simp [get_formation_offset]

/-- Evading agent of the C2 scenarios: a follower in EVADE state. -/
def evSelf : Boid := { mkBoid 0 0 0 false 1 false (1, 0) with state := "EVADE" }

/-- Threat of the C2 counterexample, 10 units east of the evader. -/
def evThreat : Boid := mkBoid 10 0 100 false 0 true (0, 0)

/-- Claim C2 counterexample: with the post-boost velocity exactly zero and the
two `random.uniform(-1, 1)` draws both `1/2`, `handle_evade` leaves velocity
`(1/2, 1/2)`, whose magnitude is `1/√2`, not exactly `MAX_SPEED / 2`: the
random-direction branch draws each component independently and does not
normalise, so the claimed "magnitude exactly MAX_SPEED/2" is false. -/
theorem c2_counterexample :
    (Boid.handle_evade evSelf (1/2, 1/2) [evThreat]).velocity = (1/2, 1/2) ∧
    mag2 ((Boid.handle_evade evSelf (1/2, 1/2) [evThreat]).velocity) ≠ (MAX_SPEED / 2) ^ 2 := by
  have hth : threatList evSelf [evThreat] = [(0, evThreat)] := by
    norm_num [threatList, withIdx, idxFrom, List.filter, evSelf, evThreat, mkBoid, dist2]
  have h1 : (Boid.handle_evade evSelf (1/2, 1/2) [evThreat]).velocity
      = evadeRescale (1/2, 1/2) (fleeBoost evSelf evThreat) := by
    simp only [Boid.handle_evade, hth, minBy, List.foldl]
  have h2 : fleeBoost evSelf evThreat = (0, 0) := by
    norm_num [fleeBoost, evSelf, evThreat, mkBoid, Prod.ext_iff]
  have h3 : evadeRescale (1/2, 1/2) (0, 0) = (1/2, 1/2) := by
    norm_num [evadeRescale, mag2, MAX_SPEED, Prod.ext_iff]
  rw [h1, h2, h3]
  norm_num [mag2, MAX_SPEED]

/-- Claim C2 (amended): in `handle_evade` with threats present the new
velocity is `evadeRescale` of the flee-boosted velocity, where: a nonzero
boosted velocity slower than `MAX_SPEED / 2` is rescaled to magnitude exactly
`MAX_SPEED / 2` preserving its direction (positive multiple), with a positive
— hence nonzero — divisor (no division by zero), provided its speed is
exactly representable; a boosted velocity of exactly zero is replaced by
`(r1 * MAX_SPEED / 2, r2 * MAX_SPEED / 2)` for the two independent uniform
draws `r1, r2` — a vector whose magnitude is generally *not* `MAX_SPEED / 2`;
and a boosted velocity at least as fast as `MAX_SPEED / 2` is kept. -/
theorem c2_amended (self : Boid) (roster : List Boid) (rnd : ℚ × ℚ)
    (t : ℕ × Boid) (ts : List (ℕ × Boid)) (hth : threatList self roster = t :: ts) :
    (Boid.handle_evade self rnd roster).velocity
        = evadeRescale rnd (fleeBoost self (minBy (distKey self) t ts).2) ∧
    (∀ v : ℚ × ℚ, 0 < mag2 v → mag2 v < (MAX_SPEED / 2) ^ 2 →
      sqrtQ (mag2 v) ^ 2 = mag2 v →
      0 < sqrtQ (mag2 v) ∧
      mag2 (evadeRescale rnd v) = (MAX_SPEED / 2) ^ 2 ∧
      ∃ c : ℚ, 0 < c ∧ evadeRescale rnd v = (c * v.1, c * v.2)) ∧
    evadeRescale rnd (0, 0) = (rnd.1 * MAX_SPEED / 2, rnd.2 * MAX_SPEED / 2) ∧
    (∀ v : ℚ × ℚ, (MAX_SPEED / 2) ^ 2 ≤ mag2 v → evadeRescale rnd v = v) := by
  refine ⟨?_, ?_, ?_, ?_⟩
  · simp only [Boid.handle_evade, hth]
  · intro v h0 h1 hs
    have hg : 0 < sqrtQ (mag2 v) := by
      rcases lt_or_eq_of_le (sqrtQ_nonneg (mag2 v)) with h | h
      · exact h
      · exfalso
        rw [← h] at hs
        simp at hs
        exact absurd hs.symm h0.ne'
    refine ⟨hg, ?_, ?_⟩
    · simp only [evadeRescale, if_pos h1, if_pos h0]
      have h1' : mag2 (v.1 / sqrtQ (mag2 v) * (MAX_SPEED / 2),
            v.2 / sqrtQ (mag2 v) * (MAX_SPEED / 2))
          = (MAX_SPEED / 2) ^ 2 * (mag2 v / sqrtQ (mag2 v) ^ 2) := by
        simp only [mag2]
        ring
      have h2' : mag2 v / sqrtQ (mag2 v) ^ 2 = 1 := by
        rw [div_eq_one_iff_eq (pow_ne_zero 2 hg.ne')]
        exact hs.symm
      rw [h1', h2', mul_one]
    · refine ⟨(MAX_SPEED / 2) / sqrtQ (mag2 v), ?_, ?_⟩
      · have hM : (0 : ℚ) < MAX_SPEED / 2 := by norm_num [MAX_SPEED]
        exact div_pos hM hg
      · simp only [evadeRescale, if_pos h1, if_pos h0, Prod.ext_iff]
        constructor <;> ring
  · have hz : mag2 ((0 : ℚ), (0 : ℚ)) = 0 := by norm_num [mag2]
    simp only [evadeRescale, hz]
    norm_num [MAX_SPEED]
  · intro v hv
    simp only [evadeRescale, if_neg (not_lt.mpr hv)]

/-- Evading agent of the C2 witness: zero velocity at the origin. -/
def evSelfW : Boid := { mkBoid 0 0 0 false 1 false (0, 0) with state := "EVADE" }

/-- Threat of the C2 witness, placed to give a Pythagorean flee boost. -/
def evThreatW : Boid := mkBoid (-3) (-4) 100 false 0 true (0, 0)

/-- Witness for C2 (amended): a concrete evade where the boosted velocity is
`(3/10, 2/5)` of exactly representable speed `1/2 < MAX_SPEED / 2`; the
rescaled velocity has squared magnitude exactly `(MAX_SPEED / 2) ^ 2` and is a
positive multiple of the boosted velocity. -/
theorem c2_witness :
    threatList evSelfW [evThreatW] = [(0, evThreatW)] ∧
    fleeBoost evSelfW evThreatW = (3/10, 2/5) ∧
    (0 < sqrtQ (mag2 (fleeBoost evSelfW evThreatW)) ∧
     mag2 (evadeRescale (1/2, 1/2) (fleeBoost evSelfW evThreatW)) = (MAX_SPEED / 2) ^ 2 ∧
     ∃ c : ℚ, 0 < c ∧ evadeRescale (1/2, 1/2) (fleeBoost evSelfW evThreatW)
        = (c * (fleeBoost evSelfW evThreatW).1, c * (fleeBoost evSelfW evThreatW).2)) := by
  have hth : threatList evSelfW [evThreatW] = [(0, evThreatW)] := by
    norm_num [threatList, withIdx, idxFrom, List.filter, evSelfW, evThreatW, mkBoid, dist2]
  have hfb : fleeBoost evSelfW evThreatW = (3/10, 2/5) := by
    norm_num [fleeBoost, evSelfW, evThreatW, mkBoid, Prod.ext_iff]
  have hm : mag2 (fleeBoost evSelfW evThreatW) = 1/4 := by
    rw [hfb]
    norm_num [mag2]
  have hnum : ((1/4 : ℚ)).num = 1 := by norm_num
  have hden : ((1/4 : ℚ)).den = 4 := by norm_num
  have hsq : sqrtQ (1/4 : ℚ) = 1/2 := by
    have hi1 : isqrt ((1 : ℤ).toNat) = 1 := by decide
    have hi4 : isqrt 4 = 2 := by decide
    simp only [sqrtQ, hnum, hden, hi1, hi4]
    norm_num
  have h0 : 0 < mag2 (fleeBoost evSelfW evThreatW) := by rw [hm]; norm_num
  have h1 : mag2 (fleeBoost evSelfW evThreatW) < (MAX_SPEED / 2) ^ 2 := by
    rw [hm]; norm_num [MAX_SPEED]
  have hs : sqrtQ (mag2 (fleeBoost evSelfW evThreatW)) ^ 2
      = mag2 (fleeBoost evSelfW evThreatW) := by
    rw [hm, hsq]; norm_num
  have happ := (c2_amended evSelfW [evThreatW] (1/2, 1/2) (0, evThreatW) [] hth).2.1
    (fleeBoost evSelfW evThreatW) h0 h1 hs
  exact ⟨hth, hfb, happ⟩

/-- Reading a mapped list cell. -/
theorem getD_map_boid (f : Boid → Boid) (l : List Boid) (j : ℕ) (h : j < l.length) :
    (l.map f).getD j dummyBoid = f (l.getD j dummyBoid) := by
  rw [List.getD_eq_getElem _ _ (by simpa using h), List.getD_eq_getElem _ _ h, List.getElem_map]

/-- Successful `apply_shield`: the activating leader's slot gains only the
`shield_timer := 600` cooldown, every other slot is either shielded (when it
meets `shieldCond`) or untouched. -/
theorem apply_shield_success (roster : List Boid) (i : ℕ) (hi : i < roster.length)
    (hl : (roster.getD i dummyBoid).is_leader = true)
    (he : (roster.getD i dummyBoid).is_enemy = false)
    (ht : (roster.getD i dummyBoid).shield_timer ≤ 0) :
    (Boid.apply_shield i roster).getD i dummyBoid
        = { roster.getD i dummyBoid with shield_timer := 600 } ∧
    ∀ j, j < roster.length → j ≠ i →
      (shieldCond (roster.getD i dummyBoid) (roster.getD j dummyBoid) →
        (Boid.apply_shield i roster).getD j dummyBoid
          = { roster.getD j dummyBoid with shielded := true, shield_timer := 180 }) ∧
      (¬shieldCond (roster.getD i dummyBoid) (roster.getD j dummyBoid) →
        (Boid.apply_shield i roster).getD j dummyBoid = roster.getD j dummyBoid) := by
  have hcond : (roster.getD i dummyBoid).is_leader = true ∧
      (roster.getD i dummyBoid).is_enemy = false ∧
      (roster.getD i dummyBoid).shield_timer ≤ 0 := ⟨hl, he, ht⟩
  constructor
  · simp only [Boid.apply_shield, if_pos hcond]
    exact getD_set_self _ _ _ _ (by simpa [List.length_map] using hi)
  · intro j hj hne
    have hbase : (Boid.apply_shield i roster).getD j dummyBoid
        = (if shieldCond (roster.getD i dummyBoid) (roster.getD j dummyBoid)
           then { roster.getD j dummyBoid with shielded := true, shield_timer := 180 }
           else roster.getD j dummyBoid) := by
      simp only [Boid.apply_shield, if_pos hcond]
      rw [getD_set_ne _ _ _ _ _ hne, getD_map_boid _ _ _ hj]
    constructor
    · intro hc
      rw [hbase, if_pos hc]
    · intro hc
      rw [hbase, if_neg hc]

/-- Failed `apply_shield` (cooldown still running, non-leader, or enemy):
the roster is returned unchanged. -/
theorem apply_shield_noop (roster : List Boid) (i : ℕ)
    (h : ¬((roster.getD i dummyBoid).is_leader = true ∧
           (roster.getD i dummyBoid).is_enemy = false ∧
           (roster.getD i dummyBoid).shield_timer ≤ 0)) :
    Boid.apply_shield i roster = roster := by
  simp only [Boid.apply_shield, if_neg h]

/-- Medic of the C3 scenarios. -/
def medicC : Boid := mkBoid 0 0 0 false 0 false (0, 0)

/-- Dead same-squad follower of the C3 scenarios, coincident with the medic. -/
def deadC : Boid := { mkBoid 0 0 0 false 1 false (0, 0) with health := 0 }

/-- Leader of the C3 shield scenario. -/
def leaderC : Boid := mkBoid 0 0 0 true 0 false (0, 0)

/-- Claim C3 counterexample: none of the three scans checks the peer's health.
A dead agent (health 0) in the roster *is* a flocking neighbour, *is* healed by
`heal_ally` (its health rises from 0 to 1/5), and *does* get `shielded := true`
from `apply_shield`. -/
theorem c3_counterexample :
    deadC.health ≤ 0 ∧
    deadC ∈ neighborList 0 medicC [medicC, deadC] ∧
    ((Boid.heal_ally medicC 0 [medicC, deadC]).getD 1 dummyBoid).health = 1/5 ∧
    ((Boid.apply_shield 0 [leaderC, deadC]).getD 1 dummyBoid).shielded = true := by
  refine ⟨by norm_num [deadC, mkBoid], ?_, ?_, ?_⟩
  · norm_num [neighborList, withIdx, idxFrom, List.filter, medicC, deadC, mkBoid, dist2,
      NEIGHBOR_RADIUS]
  · norm_num [Boid.heal_ally, mapIdxFrom, healCond, healBump, medicC, deadC, mkBoid, dist2]
  · norm_num [Boid.apply_shield, shieldCond, List.set, leaderC, deadC, mkBoid]

/-- Claim C3 (amended): the flocking neighbour scan, `heal_ally` and
`apply_shield` select peers by index, geometry, squad and faction only — never
by health — so a dead agent in the roster meeting those conditions is included
in the neighbour set, is healed, and is shielded exactly like a live one.
(Dead agents are kept out only because the main loop filters the roster to
`health > 0` before updates.) -/
theorem c3_amended :
    (∀ (roster : List Boid) (self : Boid) (i j : ℕ),
      j < roster.length → j ≠ i →
      dist2 self.position (roster.getD j dummyBoid).position < NEIGHBOR_RADIUS ^ 2 →
      roster.getD j dummyBoid ∈ neighborList i self roster) ∧
    (∀ (roster : List Boid) (self : Boid) (i j : ℕ),
      j < roster.length → self.is_medic = true →
      healCond self i j (roster.getD j dummyBoid) →
      (Boid.heal_ally self i roster).getD j dummyBoid = healBump (roster.getD j dummyBoid)) ∧
    (∀ (roster : List Boid) (i j : ℕ),
      i < roster.length → j < roster.length → j ≠ i →
      (roster.getD i dummyBoid).is_leader = true →
      (roster.getD i dummyBoid).is_enemy = false →
      (roster.getD i dummyBoid).shield_timer ≤ 0 →
      shieldCond (roster.getD i dummyBoid) (roster.getD j dummyBoid) →
      ((Boid.apply_shield i roster).getD j dummyBoid).shielded = true) := by
  refine ⟨?_, ?_, ?_⟩
  · intro roster self i j hj hne hd
    have hmem := getD_mem_idxFrom 0 j roster dummyBoid hj
    simp only [Nat.zero_add] at hmem
    apply List.mem_map.mpr
    refine ⟨(j, roster.getD j dummyBoid), ?_, rfl⟩
    apply List.mem_filter.mpr
    refine ⟨hmem, ?_⟩
    simp only [decide_eq_true_eq]
    exact ⟨hne, hd⟩
  · intro roster self i j hj hm hc
    rw [heal_ally_getD self i j roster dummyBoid hm hj, if_pos hc]
  · intro roster i j hi hj hne hl he ht hc
    rw [((apply_shield_success roster i hi hl he ht).2 j hj hne).1 hc]

/-- Witness for C3 (amended): the dead follower `deadC` (health 0) meets the
scan conditions concretely and is selected by all three operations. -/
theorem c3_witness :
    deadC.health ≤ 0 ∧
    ([medicC, deadC].getD 1 dummyBoid ∈ neighborList 0 medicC [medicC, deadC]) ∧
    ((Boid.heal_ally medicC 0 [medicC, deadC]).getD 1 dummyBoid
        = healBump ([medicC, deadC].getD 1 dummyBoid)) ∧
    ((Boid.apply_shield 0 [leaderC, deadC]).getD 1 dummyBoid).shielded = true := by
  refine ⟨by norm_num [deadC, mkBoid], ?_, ?_, ?_⟩
  · exact c3_amended.1 [medicC, deadC] medicC 0 1 (by norm_num) (by norm_num)
      (by norm_num [medicC, deadC, mkBoid, dist2, NEIGHBOR_RADIUS])
  · exact c3_amended.2.1 [medicC, deadC] medicC 0 1 (by norm_num)
      (by norm_num [medicC, mkBoid])
      (by norm_num [healCond, medicC, deadC, mkBoid, dist2])
  · exact c3_amended.2.2 [leaderC, deadC] 0 1 (by norm_num) (by norm_num) (by norm_num)
      (by norm_num [leaderC, mkBoid]) (by norm_num [leaderC, mkBoid])
      (by norm_num [leaderC, mkBoid]) (by norm_num [shieldCond, leaderC, deadC, mkBoid])

/-- Claim C4: when `Projectile.update` moves an active projectile strictly
within `BOID_RADIUS` of its live target, the projectile deactivates
unconditionally, an unshielded target loses exactly 5 health, and a shielded
target's roster is entirely unchanged. -/
theorem c4_projectile_hit (roster : List Boid) (p : Projectile)
    (hi : p.target_boid < roster.length)
    (ha : p.active = true)
    (ht : 0 < (roster.getD p.target_boid dummyBoid).health)
    (hhit : dist2 (projMoved p (roster.getD p.target_boid dummyBoid))
              (roster.getD p.target_boid dummyBoid).position < BOID_RADIUS ^ 2) :
    ((Projectile.update roster p).1.active = false) ∧
    ((roster.getD p.target_boid dummyBoid).shielded = false →
      ((Projectile.update roster p).2.getD p.target_boid dummyBoid).health
        = (roster.getD p.target_boid dummyBoid).health - 5) ∧
    ((roster.getD p.target_boid dummyBoid).shielded = true →
      (Projectile.update roster p).2 = roster) := by
  have hguard : ¬(p.active = false ∨ (roster.getD p.target_boid dummyBoid).health ≤ 0) :=
    not_or.mpr ⟨by simp [ha], not_le.mpr ht⟩
  refine ⟨?_, ?_, ?_⟩
  · simp only [Projectile.update, if_neg hguard, if_pos hhit]
  · intro hsh
    simp only [Projectile.update, if_neg hguard, if_pos hhit, if_pos hsh]
    rw [getD_set_self _ _ _ _ hi]
  · intro hsh
    have hsh' : ¬(roster.getD p.target_boid dummyBoid).shielded = false := by rw [hsh]; simp
    simp only [Projectile.update, if_neg hguard, if_pos hhit, if_neg hsh']

/-- Unshielded enemy target of the C4 witness, 5 units from the projectile. -/
def projTargetW : Boid := mkBoid 3 4 100 false 0 true (0, 0)

/-- Projectile of the C4 witness, at the origin, aimed at roster index 0. -/
def projW : Projectile :=
  { pos := (0, 0), target_boid := 0, velocity := (0, 0), speed := 5, active := true }

/-- Witness for C4: the concrete projectile homes from `(0,0)` onto the target
at `(3,4)` (distance 5, exactly representable), lands on it, deactivates, and
the unshielded target loses exactly 5 health. -/
theorem c4_witness :
    projW.active = true ∧
    0 < ([projTargetW].getD 0 dummyBoid).health ∧
    dist2 (projMoved projW ([projTargetW].getD 0 dummyBoid))
        ([projTargetW].getD 0 dummyBoid).position < BOID_RADIUS ^ 2 ∧
    ((Projectile.update [projTargetW] projW).1.active = false) ∧
    (([projTargetW].getD 0 dummyBoid).shielded = false →
      ((Projectile.update [projTargetW] projW).2.getD 0 dummyBoid).health
        = ([projTargetW].getD 0 dummyBoid).health - 5) := by
  have ht0 : ([projTargetW].getD 0 dummyBoid) = projTargetW := rfl
  have hd : dist2 projW.pos projTargetW.position = 25 := by
    norm_num [projW, projTargetW, mkBoid, dist2]
  have hsq : sqrtQ 25 = 5 := by
    have hnum : ((25 : ℚ)).num = 25 := by norm_num
    have hden : ((25 : ℚ)).den = 1 := by norm_num
    have hi25 : isqrt ((25 : ℤ).toNat) = 5 := by decide
    have hi1 : isqrt 1 = 1 := by decide
    simp only [sqrtQ, hnum, hden, hi25, hi1]
    norm_num
  have hv : projVel projW projTargetW = (3, 4) := by
    simp only [projVel, distQ]
    rw [hd, hsq]
    norm_num [projW, projTargetW, mkBoid, Prod.ext_iff]
  have hmv : projMoved projW projTargetW = (3, 4) := by
    simp only [projMoved, hv]
    norm_num [projW, Prod.ext_iff]
  have hhit : dist2 (projMoved projW ([projTargetW].getD 0 dummyBoid))
      ([projTargetW].getD 0 dummyBoid).position < BOID_RADIUS ^ 2 := by
    rw [ht0, hmv]
    norm_num [projTargetW, mkBoid, dist2, BOID_RADIUS]
  have h := c4_projectile_hit [projTargetW] projW (by norm_num [projW]) rfl
    (by norm_num [projW, projTargetW, mkBoid]) hhit
  exact ⟨rfl, by norm_num [projW, projTargetW, mkBoid], hhit, h.1, h.2.1⟩

/-- Claim C5: a non-enemy leader off cooldown shields every same-squad
non-leader non-enemy agent (`shielded := true`, `shield_timer := 180`) and
takes the 600-tick cooldown itself, even with no followers (the leader slot
conclusion does not depend on any follower existing); in every other case
(`shield_timer > 0`, non-leader, or enemy) the roster is returned unchanged. -/
theorem c5_apply_shield (roster : List Boid) (i : ℕ) (hi : i < roster.length) :
    ((roster.getD i dummyBoid).is_leader = true →
     (roster.getD i dummyBoid).is_enemy = false →
     (roster.getD i dummyBoid).shield_timer ≤ 0 →
      ((Boid.apply_shield i roster).getD i dummyBoid).shield_timer = 600 ∧
      ∀ j, j < roster.length → j ≠ i →
        shieldCond (roster.getD i dummyBoid) (roster.getD j dummyBoid) →
        ((Boid.apply_shield i roster).getD j dummyBoid).shielded = true ∧
        ((Boid.apply_shield i roster).getD j dummyBoid).shield_timer = 180) ∧
    (¬((roster.getD i dummyBoid).is_leader = true ∧
       (roster.getD i dummyBoid).is_enemy = false ∧
       (roster.getD i dummyBoid).shield_timer ≤ 0) →
      Boid.apply_shield i roster = roster) := by
  constructor
  · intro hl he ht
    obtain ⟨hslot, hothers⟩ := apply_shield_success roster i hi hl he ht
    constructor
    · rw [hslot]
    · intro j hj hne hc
      rw [(hothers j hj hne).1 hc]
      exact ⟨rfl, rfl⟩
  · exact apply_shield_noop roster i

/-- Shielding leader of the C5/C10 witnesses. -/
def leaderS : Boid := mkBoid 0 0 0 true 0 false (0, 0)

/-- Same-squad follower of the C5/C10 witnesses. -/
def allyS : Boid := mkBoid 10 0 0 false 1 false (0, 0)

/-- Different-squad bystander of the C10 witness. -/
def otherS : Boid := mkBoid 20 0 1 false 0 false (0, 0)

/-- Witness for C5: concrete two-agent squad; the follower is shielded for 180
ticks and the leader takes the 600-tick cooldown. -/
theorem c5_witness :
    ([leaderS, allyS].getD 0 dummyBoid).is_leader = true ∧
    shieldCond ([leaderS, allyS].getD 0 dummyBoid) ([leaderS, allyS].getD 1 dummyBoid) ∧
    ((Boid.apply_shield 0 [leaderS, allyS]).getD 0 dummyBoid).shield_timer = 600 ∧
    ((Boid.apply_shield 0 [leaderS, allyS]).getD 1 dummyBoid).shielded = true ∧
    ((Boid.apply_shield 0 [leaderS, allyS]).getD 1 dummyBoid).shield_timer = 180 := by
  have h := (c5_apply_shield [leaderS, allyS] 0 (by norm_num)).1
    (by norm_num [leaderS, mkBoid]) (by norm_num [leaderS, mkBoid])
    (by norm_num [leaderS, mkBoid])
  have hj := h.2 1 (by norm_num) (by norm_num)
    (by norm_num [shieldCond, leaderS, allyS, mkBoid])
  exact ⟨by norm_num [leaderS, mkBoid], by norm_num [shieldCond, leaderS, allyS, mkBoid],
    h.1, hj.1, hj.2⟩

/-- Claim C10 (frame of a successful `apply_shield`): the activating leader's
slot is exactly its old record with only `shield_timer` replaced by 600 — in
particular its own `shielded` flag is unchanged, so the leader gains the
cooldown but not the protection; a non-follower slot is entirely unchanged;
and a follower slot is exactly its old record with only `shielded` and
`shield_timer` replaced. -/
theorem c10_shield_frame (roster : List Boid) (i : ℕ) (hi : i < roster.length)
    (hl : (roster.getD i dummyBoid).is_leader = true)
    (he : (roster.getD i dummyBoid).is_enemy = false)
    (ht : (roster.getD i dummyBoid).shield_timer ≤ 0) :
    (Boid.apply_shield i roster).getD i dummyBoid
        = { roster.getD i dummyBoid with shield_timer := 600 } ∧
    ((Boid.apply_shield i roster).getD i dummyBoid).shielded
        = (roster.getD i dummyBoid).shielded ∧
    ∀ j, j < roster.length → j ≠ i →
      (¬shieldCond (roster.getD i dummyBoid) (roster.getD j dummyBoid) →
        (Boid.apply_shield i roster).getD j dummyBoid = roster.getD j dummyBoid) ∧
      (shieldCond (roster.getD i dummyBoid) (roster.getD j dummyBoid) →
        (Boid.apply_shield i roster).getD j dummyBoid
          = { roster.getD j dummyBoid with shielded := true, shield_timer := 180 }) := by
  obtain ⟨hslot, hothers⟩ := apply_shield_success roster i hi hl he ht
  exact ⟨hslot, by rw [hslot], fun j hj hne => ⟨(hothers j hj hne).2, (hothers j hj hne).1⟩⟩

/-- Witness for C10: with a leader, a same-squad follower and a
different-squad bystander, the leader keeps `shielded = false`, the bystander
slot is untouched, and only the follower gets the shield fields set. -/
theorem c10_witness :
    ((Boid.apply_shield 0 [leaderS, allyS, otherS]).getD 0 dummyBoid).shielded
        = ([leaderS, allyS, otherS].getD 0 dummyBoid).shielded ∧
    (Boid.apply_shield 0 [leaderS, allyS, otherS]).getD 0 dummyBoid
        = { leaderS with shield_timer := 600 } ∧
    (Boid.apply_shield 0 [leaderS, allyS, otherS]).getD 2 dummyBoid
        = [leaderS, allyS, otherS].getD 2 dummyBoid ∧
    (Boid.apply_shield 0 [leaderS, allyS, otherS]).getD 1 dummyBoid
        = { allyS with shielded := true, shield_timer := 180 } := by
  have h := c10_shield_frame [leaderS, allyS, otherS] 0 (by norm_num)
    (by norm_num [leaderS, mkBoid]) (by norm_num [leaderS, mkBoid])
    (by norm_num [leaderS, mkBoid])
  refine ⟨h.2.1, h.1, ?_, ?_⟩
  · exact (h.2.2 2 (by norm_num) (by norm_num)).1
      (by norm_num [shieldCond, leaderS, otherS, mkBoid])
  · exact (h.2.2 1 (by norm_num) (by norm_num)).2
      (by norm_num [shieldCond, leaderS, allyS, mkBoid])

/-- Claim C6: whenever `handle_patrol` runs with at least one live
opposing-faction agent strictly within `detection_range` (a nonempty
`detectCandidates` list, in roster order), the agent transitions to ENGAGE
with `target_enemy` set to the `minBy`-selected candidate, and that candidate
is a minimum-distance one, with ties resolved stably: every candidate strictly
before the selected one in roster order has a strictly larger distance, and
every one after it is no closer. -/
theorem c6_patrol_targeting (tr : Trig) (self : Boid) (roster : List Boid) (n : ℕ)
    (c : ℕ × Boid) (cs : List (ℕ × Boid))
    (h : detectCandidates self roster = c :: cs) :
    (self.handle_patrol tr roster n).state = "ENGAGE" ∧
    (self.handle_patrol tr roster n).target_enemy = some (minBy (distKey self) c cs).1 ∧
    minBy (distKey self) c cs ∈ c :: cs ∧
    (∀ x ∈ c :: cs, distKey self (minBy (distKey self) c cs) ≤ distKey self x) ∧
    ∃ l1 l2, c :: cs = l1 ++ minBy (distKey self) c cs :: l2 ∧
      (∀ x ∈ l1, distKey self (minBy (distKey self) c cs) < distKey self x) ∧
      (∀ x ∈ l2, distKey self (minBy (distKey self) c cs) ≤ distKey self x) := by
  obtain ⟨h1, h2, h3⟩ := patrolMove_preserves self tr roster n
  have hc : detectCandidates (patrolMove self tr roster n) roster = c :: cs := by
    rw [detectCandidates_congr _ self _ h1 h2 h3]
    exact h
  have hk : distKey (patrolMove self tr roster n) = distKey self := distKey_congr _ _ h1
  have hstate : (self.handle_patrol tr roster n).state = "ENGAGE" := by
    simp [Boid.handle_patrol, hc, hk]
  have htarget : (self.handle_patrol tr roster n).target_enemy
      = some (minBy (distKey self) c cs).1 := by
    simp [Boid.handle_patrol, hc, hk]
  obtain ⟨l1, l2, hdec, hlt, hle⟩ := minBy_first (distKey self) cs c
  refine ⟨hstate, htarget, ?_, minBy_le (distKey self) cs c, l1, l2, hdec, hlt, hle⟩
  rw [hdec]
  exact List.mem_append.mpr (Or.inr (List.mem_cons_self _ _))

/-- Patrolling agent of the C6 witness. -/
def patSelf : Boid := mkBoid 500 350 0 true 0 false (0, 0)

/-- Live enemy of the C6 witness, 100 units from the patroller. -/
def patEnemy : Boid := mkBoid 600 350 100 false 0 true (0, 0)

/-- Witness for C6: with one live enemy 100 units away (inside the 300-unit
detection range), the patroller engages it and targets roster index 0. -/
theorem c6_witness :
    detectCandidates patSelf [patEnemy] = [(0, patEnemy)] ∧
    (patSelf.handle_patrol tr0 [patEnemy] 6).state = "ENGAGE" ∧
    (patSelf.handle_patrol tr0 [patEnemy] 6).target_enemy
        = some (minBy (distKey patSelf) (0, patEnemy) []).1 ∧
    (minBy (distKey patSelf) (0, patEnemy) []).1 = 0 := by
  have hdc : detectCandidates patSelf [patEnemy] = [(0, patEnemy)] := by
    norm_num [detectCandidates, withIdx, idxFrom, List.filter, patSelf, patEnemy, mkBoid, dist2]
  have h := c6_patrol_targeting tr0 patSelf [patEnemy] 6 (0, patEnemy) [] hdc
  exact ⟨hdc, h.1, h.2.1, rfl⟩

/-- Claim C7: after `Boid.update` of any live agent, the agent's squared
velocity magnitude is at most `MAX_SPEED ^ 2` (that is, its Euclidean speed is
at most `MAX_SPEED`), and the final velocity is exactly the speed-capped
flocked velocity — integration, wrapping and healing do not modify it. -/
theorem c7_speed_cap (tr : Trig) (rnd : ℚ × ℚ) (i : ℕ) (roster : List Boid) (n : ℕ)
    (ps : List Projectile) (hi : i < roster.length)
    (hlive : 0 < (roster.getD i dummyBoid).health) :
    mag2 (((Boid.update tr rnd i roster n ps).1.getD i dummyBoid).velocity) ≤ MAX_SPEED ^ 2 ∧
    ((Boid.update tr rnd i roster n ps).1.getD i dummyBoid).velocity
      = capSpeed ((((dispatchState tr rnd roster n ps
          (tickTimers (roster.getD i dummyBoid))).1).flock i roster).velocity) := by
  rw [update_live tr rnd i roster n ps hlive]
  have hlen : i < ((updatedSelf tr rnd i roster n ps).1.heal_ally i roster).length := by
    rw [heal_ally_length]
    exact hi
  have hget : (List.set ((updatedSelf tr rnd i roster n ps).1.heal_ally i roster) i
      (updatedSelf tr rnd i roster n ps).1,
      (updatedSelf tr rnd i roster n ps).2).1.getD i dummyBoid
      = (updatedSelf tr rnd i roster n ps).1 := getD_set_self _ _ _ _ hlen
  rw [hget]
  have hvel : (updatedSelf tr rnd i roster n ps).1.velocity
      = capSpeed ((((dispatchState tr rnd roster n ps
          (tickTimers (roster.getD i dummyBoid))).1).flock i roster).velocity) := rfl
  rw [hvel]
  exact ⟨mag2_capSpeed_le _, rfl⟩

/-- Solo live agent of the C7/C8 witnesses. -/
def soloW : Boid := mkBoid 100 100 0 true 0 false (1, 1)

/-- Witness for C7: the solo agent's post-update speed is capped. -/
theorem c7_witness :
    0 < ([soloW].getD 0 dummyBoid).health ∧
    mag2 (((Boid.update tr0 (0, 0) 0 [soloW] 6 []).1.getD 0 dummyBoid).velocity)
      ≤ MAX_SPEED ^ 2 :=
  ⟨by norm_num [soloW, mkBoid],
   (c7_speed_cap tr0 (0, 0) 0 [soloW] 6 [] (by norm_num) (by norm_num [soloW, mkBoid])).1⟩

/-- Claim C8: after `Boid.update` of any live agent — whatever the pre-wrap
position and velocity were — both coordinates of the agent's position lie in
`[0, WIDTH)` and `[0, HEIGHT)` respectively, because integration is followed
by the float modulo. -/
theorem c8_toroidal_wrap (tr : Trig) (rnd : ℚ × ℚ) (i : ℕ) (roster : List Boid) (n : ℕ)
    (ps : List Projectile) (hi : i < roster.length)
    (hlive : 0 < (roster.getD i dummyBoid).health) :
    0 ≤ (((Boid.update tr rnd i roster n ps).1.getD i dummyBoid).position).1 ∧
    (((Boid.update tr rnd i roster n ps).1.getD i dummyBoid).position).1 < WIDTH ∧
    0 ≤ (((Boid.update tr rnd i roster n ps).1.getD i dummyBoid).position).2 ∧
    (((Boid.update tr rnd i roster n ps).1.getD i dummyBoid).position).2 < HEIGHT := by
  rw [update_live tr rnd i roster n ps hlive]
  have hlen : i < ((updatedSelf tr rnd i roster n ps).1.heal_ally i roster).length := by
    rw [heal_ally_length]
    exact hi
  have hget : (List.set ((updatedSelf tr rnd i roster n ps).1.heal_ally i roster) i
      (updatedSelf tr rnd i roster n ps).1,
      (updatedSelf tr rnd i roster n ps).2).1.getD i dummyBoid
      = (updatedSelf tr rnd i roster n ps).1 := getD_set_self _ _ _ _ hlen
  rw [hget]
  obtain ⟨a, b, hpos⟩ : ∃ a b, (updatedSelf tr rnd i roster n ps).1.position
      = (fmod a WIDTH, fmod b HEIGHT) := ⟨_, _, rfl⟩
  rw [hpos]
  have hW : (0 : ℚ) < WIDTH := by norm_num [WIDTH]
  have hH : (0 : ℚ) < HEIGHT := by norm_num [HEIGHT]
  exact ⟨fmod_nonneg a WIDTH hW, fmod_lt a WIDTH hW, fmod_nonneg b HEIGHT hH,
    fmod_lt b HEIGHT hH⟩

/-- Witness for C8: the solo agent's post-update position is inside the world
rectangle. -/
theorem c8_witness :
    0 < ([soloW].getD 0 dummyBoid).health ∧
    0 ≤ (((Boid.update tr0 (0, 0) 0 [soloW] 6 []).1.getD 0 dummyBoid).position).1 ∧
    (((Boid.update tr0 (0, 0) 0 [soloW] 6 []).1.getD 0 dummyBoid).position).1 < WIDTH ∧
    0 ≤ (((Boid.update tr0 (0, 0) 0 [soloW] 6 []).1.getD 0 dummyBoid).position).2 ∧
    (((Boid.update tr0 (0, 0) 0 [soloW] 6 []).1.getD 0 dummyBoid).position).2 < HEIGHT :=
  ⟨by norm_num [soloW, mkBoid],
   c8_toroidal_wrap tr0 (0, 0) 0 [soloW] 6 [] (by norm_num) (by norm_num [soloW, mkBoid])⟩

/-- Claim C9: `heal_ally` run on a medic bumps — by exactly `0.2`, clamped at
`100` (`healBump`) — precisely the agents meeting `healCond` (same squad, not
itself, non-enemy, strictly within 60 units, health below 100) and leaves
every other slot unchanged; run on a non-medic it changes nothing; the clamp
never exceeds 100 (`min` form); and for every live agent and every state, the
other agents after `Boid.update` are exactly `heal_ally` of the post-movement
agent applied to the roster — healing runs each tick regardless of `aiState`. -/
theorem c9_medic_heal :
    (∀ (self : Boid) (i j : ℕ) (roster : List Boid), self.is_medic = true →
      j < roster.length →
      (Boid.heal_ally self i roster).getD j dummyBoid
        = (if healCond self i j (roster.getD j dummyBoid)
           then healBump (roster.getD j dummyBoid) else roster.getD j dummyBoid)) ∧
    (∀ (self : Boid) (i : ℕ) (roster : List Boid), self.is_medic = false →
      Boid.heal_ally self i roster = roster) ∧
    (∀ b : Boid, (healBump b).health = min (b.health + 0.2) 100) ∧
    (∀ (tr : Trig) (rnd : ℚ × ℚ) (i j : ℕ) (roster : List Boid) (n : ℕ)
       (ps : List Projectile),
      0 < (roster.getD i dummyBoid).health → j ≠ i →
      (Boid.update tr rnd i roster n ps).1.getD j dummyBoid
        = ((updatedSelf tr rnd i roster n ps).1.heal_ally i roster).getD j dummyBoid) := by
  refine ⟨?_, ?_, ?_, ?_⟩
  · intro self i j roster hm hj
    exact heal_ally_getD self i j roster dummyBoid hm hj
  · intro self i roster hm
    exact heal_ally_nonmedic self i roster hm
  · intro b
    simp only [healBump]
    split
    case isTrue h => exact (min_eq_right h.le).symm
    case isFalse h => exact (min_eq_left (not_lt.mp h)).symm
  · intro tr rnd i j roster n ps hlive hne
    rw [update_live tr rnd i roster n ps hlive]
    exact getD_set_ne _ _ _ _ _ hne

/-- Medic of the C9 witness. -/
def medicW : Boid := mkBoid 500 350 0 false 0 false (0, 0)

/-- Hurt same-squad ally of the C9 witness, 10 units from the medic. -/
def allyW : Boid := { mkBoid 510 350 0 false 1 false (0, 0) with health := 50 }

/-- Witness for C9: concrete medic/ally pair, discharging each part of the
heal contract at a live medic in PATROL state. -/
theorem c9_witness :
    medicW.is_medic = true ∧
    ((Boid.heal_ally medicW 0 [medicW, allyW]).getD 1 dummyBoid
       = (if healCond medicW 0 1 ([medicW, allyW].getD 1 dummyBoid)
          then healBump ([medicW, allyW].getD 1 dummyBoid)
          else [medicW, allyW].getD 1 dummyBoid)) ∧
    (healBump allyW).health = min (allyW.health + 0.2) 100 ∧
    0 < ([medicW, allyW].getD 0 dummyBoid).health ∧
    ((Boid.update tr0 (0, 0) 0 [medicW, allyW] 6 []).1.getD 1 dummyBoid
       = ((updatedSelf tr0 (0, 0) 0 [medicW, allyW] 6 []).1.heal_ally 0
            [medicW, allyW]).getD 1 dummyBoid) :=
  ⟨by norm_num [medicW, mkBoid],
   c9_medic_heal.1 medicW 0 1 [medicW, allyW] (by norm_num [medicW, mkBoid]) (by norm_num),
   c9_medic_heal.2.2.1 allyW,
   by norm_num [medicW, mkBoid],
   c9_medic_heal.2.2.2 tr0 (0, 0) 0 1 [medicW, allyW] 6 []
     (by norm_num [medicW, mkBoid]) (by norm_num)⟩
